import Mathlib

/-!
# probe-cli: a shallow embedding of the traced dialer, the control comparator
and the engine network, with the properties proved about them

Conventions of the embedding.

* A Go `string` is a Lean `String` (Go strings that are valid UTF-8); the
  byte-wise library functions used by the code (`strings.Split` on `;`,
  `strings.Contains` with `h3`, `strconv.Atoi`) only look at ASCII bytes, so
  they act on the characters the same way.
* A Go `error` is `Option GoError`, `none` being `nil`.
* A buffered channel is its capacity and the list of buffered values, oldest
  first.  A `select` with a `default` branch is a total function on that state.
* `int`, `int64` and `time.Duration` are `Int`; `uint` is `Nat`; conversions
  that can wrap are written with an explicit modulus.
* Library and repository functions that are not part of the files embedded here
  are passed as parameters, or modelled from the specification and marked so.
-/

namespace Probe

/-! ## Go values -/

/-- A Go error value: a plain error, or an `ErrWrapper` that records the
operation during which the wrapped error occurred. -/
inductive GoError where
  | plain (msg : String)
  | ErrWrapper (Operation : String) (WrappedErr : GoError)
  deriving DecidableEq

/-- A buffered Go channel: `cap` is the capacity given to `make`, `buf` the
values currently buffered, oldest first. -/
structure Chan (α : Type) where
  cap : Nat
  buf : List α

/-- The channel returned by `make(chan α, n)`. -/
def Chan.make (α : Type) (n : Nat) : Chan α := ⟨n, []⟩

/-- The statement `select { case ch <- v: default: }`: the value is buffered
when there is room and dropped otherwise. -/
def Chan.trySend {α : Type} (ch : Chan α) (v : α) : Chan α :=
  if ch.buf.length < ch.cap then { ch with buf := ch.buf ++ [v] } else ch

/-- The statement `select { case ev := <-ch: ... default: ... }`: the oldest
buffered value and the remaining channel, or `none` for the default branch. -/
def Chan.tryRecv {α : Type} (ch : Chan α) : Option (α × Chan α) :=
  match ch.buf with
  | [] => none
  | ev :: rest => some (ev, { ch with buf := rest })

/-! ## time -/

/-- A `time.Time`, as nanoseconds on one clock. -/
structure Time where
  ns : Int
  deriving DecidableEq

/-- The smallest `time.Duration`. -/
def minDuration : Int := -(2 ^ 63)

/-- The largest `time.Duration`. -/
def maxDuration : Int := 2 ^ 63 - 1

/-- `t.Sub(u)`: the duration `t - u`, saturated to the range of
`time.Duration`. -/
def Time.Sub (t u : Time) : Int :=
  let d := t.ns - u.ns
  if d < minDuration then minDuration
  else if d > maxDuration then maxDuration
  else d

/-- The value of `Duration.Seconds()`, kept as the two integers the library
computes it from: the result is `float64(sec) + float64(nsec)/1e9`. -/
structure FloatSeconds where
  sec : Int
  nsec : Int
  deriving DecidableEq

/-- `d.Seconds()` with `sec := d / Second` and `nsec := d % Second` (Go
division truncates toward zero). -/
def Seconds (d : Int) : FloatSeconds :=
  ⟨Int.tdiv d 1000000000, Int.tmod d 1000000000⟩

/-! ## strconv.Atoi -/

/-- The two kinds of `strconv.NumError`. -/
inductive NumError where
  | ErrSyntax
  | ErrRange
  deriving DecidableEq

/-- The largest `uint64`. -/
def maxUint64 : Nat := 2 ^ 64 - 1

/-- `math.MaxUint16`. -/
def MaxUint16 : Int := 65535

/-- The digit loop of `strconv.ParseUint(s, 10, 64)`, with `n` the value
accumulated so far. -/
def parseUintLoop : List Char → Nat → Nat × Option NumError
  | [], n => (n, none)
  | c :: cs, n =>
    if '0' ≤ c ∧ c ≤ '9' then
      let d := c.toNat - '0'.toNat
      if n ≥ maxUint64 / 10 + 1 then (maxUint64, some NumError.ErrRange)
      else if n * 10 + d > maxUint64 then (maxUint64, some NumError.ErrRange)
      else parseUintLoop cs (n * 10 + d)
    else (0, some NumError.ErrSyntax)

/-- `strconv.ParseUint(s, 10, 64)`. -/
def ParseUint (s : List Char) : Nat × Option NumError :=
  match s with
  | [] => (0, some NumError.ErrSyntax)
  | _ => parseUintLoop s 0

/-- `strconv.ParseInt(s, 10, 0)` on a platform whose `int` has 64 bits. -/
def ParseInt (s : List Char) : Int × Option NumError :=
  match s with
  | [] => (0, some NumError.ErrSyntax)
  | c :: cs =>
    let neg := c = '-'
    let digits := if c = '+' ∨ c = '-' then cs else s
    match ParseUint digits with
    | (_, some NumError.ErrSyntax) => (0, some NumError.ErrSyntax)
    | (un, err) =>
      if ¬ neg ∧ un ≥ 2 ^ 63 then (2 ^ 63 - 1, some NumError.ErrRange)
      else if neg ∧ un > 2 ^ 63 then (-(2 ^ 63), some NumError.ErrRange)
      else (if neg then -(un : Int) else (un : Int), err)

/-- `strconv.Atoi(s)`: the library takes a fast path for short strings that
computes the same value and error as `ParseInt(s, 10, 0)`. -/
def Atoi (s : String) : Int × Option NumError := ParseInt s.toList

/-! ## measurexlite: the trace and the traced dialer -/

/-- What the traced dialer takes from outside the files embedded here:
`net.SplitHostPort` of the standard library, returning host, port and error,
and the classification of an error into a failure string. -/
structure Env where
  SplitHostPort : String → String × String × Option GoError
  classify : GoError → String

/-- Modelled from the spec: `tracex.NewFailure` is outside the files embedded here; the
specification describes the failure of an archival record as an optional
classified-failure string, absent when the operation succeeded. -/
def NewFailure (env : Env) (err : Option GoError) : Option String :=
  match err with
  | none => none
  | some e => some (env.classify e)

/-- The status of `model.ArchivalTCPConnectResult`. -/
structure ArchivalTCPConnectStatus where
  Blocked : Option Bool
  Failure : Option String
  Success : Bool
  deriving DecidableEq

/-- The archival record of one TCP connect. -/
structure ArchivalTCPConnectResult where
  IP : String
  Port : Int
  Status : ArchivalTCPConnectStatus
  T : FloatSeconds
  deriving DecidableEq

/-- `archivalSplitHostPort`: the host and port of `net.SplitHostPort`, whatever
the error, and the lines written to the log. -/
def archivalSplitHostPort (env : Env) (endpoint : String) :
    (String × String) × List String :=
  match env.SplitHostPort endpoint with
  | (addr, port, err) =>
    ((addr, port),
      if err ≠ none then
        ["BUG: archivalSplitHostPort: invalid endpoint: " ++ endpoint]
      else [])

/-- `archivalPortToString`: the number of `strconv.Atoi`, and the lines written
to the log. -/
def archivalPortToString (sport : String) : Int × List String :=
  match Atoi sport with
  | (port, err) =>
    (port,
      if err ≠ none ∨ port < 0 ∨ port > MaxUint16 then
        ["BUG: archivalStrconvAtoi: invalid port: " ++ sport]
      else [])

/-- `NewArchivalTCPConnectResult(index, started, address, err, finished)`. -/
def NewArchivalTCPConnectResult (env : Env) (_index : Int) (_started : Int)
    (address : String) (err : Option GoError) (finished : Int) :
    ArchivalTCPConnectResult :=
  let ipPort := (archivalSplitHostPort env address).1
  { IP := ipPort.1
    Port := (archivalPortToString ipPort.2).1
    Status :=
      { Blocked := none
        Failure := NewFailure env err
        Success := err = none }
    T := Seconds finished }

/-- The `Trace` of measurexlite.  The element types of the network-event and
handshake channels are not built by the files embedded here and stay abstract. -/
structure Trace (NE TH : Type) where
  Index : Int
  NetworkEvent : Chan NE
  TCPConnect : Chan ArchivalTCPConnectResult
  TLSHandshake : Chan TH
  ZeroTime : Time

/-- The arguments of one `OnConnectDone` call. -/
structure ConnectDone where
  started : Time
  network : String
  domain : String
  remoteAddr : String
  err : Option GoError
  finished : Time

/-- `tx.OnConnectDone(started, network, domain, remoteAddr, err, finished)`. -/
def Trace.OnConnectDone {NE TH : Type} (env : Env) (tx : Trace NE TH)
    (started : Time) (network _domain remoteAddr : String)
    (err : Option GoError) (finished : Time) : Trace NE TH :=
  if network = "tcp" ∨ network = "tcp4" ∨ network = "tcp6" then
    { tx with
      TCPConnect := tx.TCPConnect.trySend
        (NewArchivalTCPConnectResult env tx.Index (started.Sub tx.ZeroTime)
          remoteAddr err (finished.Sub tx.ZeroTime)) }
  else tx

/-- The loop of `TCPConnects` on the buffered values: each turn takes the
receive branch while a value is buffered and appends it to `out`; the default
branch returns `out`, leaving the channel empty. -/
def tcpConnectsLoop {α : Type} (cap : Nat) :
    List α → List α → List α × Chan α
  | [], out => (out, ⟨cap, []⟩)
  | ev :: rest, out => tcpConnectsLoop cap rest (out ++ [ev])

/-- `tx.TCPConnects()`: the drained records and the trace afterwards. -/
def Trace.TCPConnects {NE TH : Type} (tx : Trace NE TH) :
    List ArchivalTCPConnectResult × Trace NE TH :=
  let r := tcpConnectsLoop tx.TCPConnect.cap tx.TCPConnect.buf []
  (r.1, { tx with TCPConnect := r.2 })

/-- The trace after a sequence of `OnConnectDone` calls, in call order. -/
def onConnectDoneAll {NE TH : Type} (env : Env) (tx : Trace NE TH)
    (calls : List ConnectDone) : Trace NE TH :=
  calls.foldl
    (fun t c => t.OnConnectDone env c.started c.network c.domain c.remoteAddr
      c.err c.finished) tx

/-- The record that an `OnConnectDone` call offers to the queue of `tx`. -/
def recordOf {NE TH : Type} (env : Env) (tx : Trace NE TH) (c : ConnectDone) :
    ArchivalTCPConnectResult :=
  NewArchivalTCPConnectResult env tx.Index (c.started.Sub tx.ZeroTime)
    c.remoteAddr c.err (c.finished.Sub tx.ZeroTime)

/-- The trace after `n` further calls of `TCPConnects`. -/
def drainAgain {NE TH : Type} : Nat → Trace NE TH → Trace NE TH
  | 0, tx => tx
  | n + 1, tx => drainAgain n tx.TCPConnects.2

/-- A trace with an empty TCPConnect queue of capacity one. -/
def exampleTrace : Trace Unit Unit :=
  { Index := 0
    NetworkEvent := Chan.make Unit 64
    TCPConnect := Chan.make ArchivalTCPConnectResult 1
    TLSHandshake := Chan.make Unit 8
    ZeroTime := ⟨0⟩ }

/-- An environment for the examples: every endpoint splits as itself and
port 80, every error is classified alike. -/
def exampleEnv : Env :=
  { SplitHostPort := fun s => (s, "80", none)
    classify := fun _ => "unknown_failure" }

/-- Two connect calls: a successful one and a refused one. -/
def exampleCalls : List ConnectDone :=
  [ { started := ⟨10⟩, network := "tcp", domain := "example.org",
      remoteAddr := "10.0.0.1:80", err := none, finished := ⟨30⟩ },
    { started := ⟨40⟩, network := "tcp4", domain := "example.org",
      remoteAddr := "10.0.0.2:80",
      err := some (GoError.plain "connection refused"), finished := ⟨50⟩ } ]

/-! ## nwebconnectivity: the control comparator -/

/-- `ControlRequest`, the request sent to the control. -/
structure ControlRequest where
  HTTPRequest : String
  HTTPRequestHeaders : List (String × List String)
  TCPConnect : List String
  QUICHandshake : List String

/-- `ControlTCPConnectResult`. -/
structure ControlTCPConnectResult where
  Status : Bool
  Failure : Option String

/-- `ControlHTTPRequestResult`; the `Headers` map is a list of key and value
pairs, read with `mapIndex`. -/
structure ControlHTTPRequestResult where
  BodyLength : Int
  Failure : Option String
  Title : String
  Headers : List (String × String)
  StatusCode : Int

/-- `ControlQUICHandshakeResult`. -/
structure ControlQUICHandshakeResult where
  Status : Bool
  Failure : Option String

/-- `ControlDNSResult`. -/
structure ControlDNSResult where
  Failure : Option String
  Addrs : List String
  ASNs : List Int

/-- `ControlResponse`, the response of the control service. -/
structure ControlResponse where
  DNS : ControlDNSResult
  HTTPRequest : ControlHTTPRequestResult
  HTTP3Request : ControlHTTPRequestResult
  QUICHandshake : List (String × ControlQUICHandshakeResult)
  TCPConnect : List (String × ControlTCPConnectResult)

/-- The zero value of `ControlResponse`, which `out` holds before the POST. -/
def ControlResponse.zero : ControlResponse :=
  { DNS := ⟨none, [], []⟩
    HTTPRequest := ⟨0, none, "", [], 0⟩
    HTTP3Request := ⟨0, none, "", [], 0⟩
    QUICHandshake := []
    TCPConnect := [] }

/-- A declared test helper (`model.Service`).  The code reads its `Type`
field only (`Type_` here, the plain word being reserved); `Address` stands for
what else a helper carries. -/
structure Service where
  Address : String
  Type_ : String
  deriving DecidableEq

/-- The HTTP client capability behind `httpx.Client.PostJSON`: from the base
URL, the resource path, the request and the current value of `out`, the error
of the POST and the value of `out` afterwards. -/
structure HTTPClient where
  PostJSON : String → String → ControlRequest → ControlResponse →
    Option GoError × ControlResponse

/-- The part of `model.ExperimentSession` that the code uses.  A lookup of
test helpers either yields the declared list or fails, in which case Go
receives the nil list and `false`. -/
structure ExperimentSession where
  DefaultHTTPClient : HTTPClient
  GetTestHelpersByName : String → Option (List Service)

/-- The local ASN database: for an address, the number and the organisation
when the address is known. -/
abbrev ASNDatabase := String → Option (Nat × String)

/-- Modelled from the spec: `geolocate.LookupASN` is outside the files embedded
here; the specification has it return the looked-up number, or the zero
sentinel together with an error when the lookup fails. -/
def LookupASN (db : ASNDatabase) (ip : String) : Nat × String × Option GoError :=
  match db ip with
  | some (asn, org) => (asn, org, none)
  | none => (0, "", some (GoError.plain "geolocate: lookup failed"))

/-- The conversion `int64(asn)` of an unsigned 64-bit number. -/
def int64OfUint (n : Nat) : Int :=
  if n % 2 ^ 64 < 2 ^ 63 then ((n % 2 ^ 64 : Nat) : Int)
  else ((n % 2 ^ 64 : Nat) : Int) - 2 ^ 64

/-- `dns.FillASNs(sess)`: the list is reset, then one number is appended per
address, the error of the lookup being discarded. -/
def FillASNs (db : ASNDatabase) (_sess : ExperimentSession)
    (dns : ControlDNSResult) : ControlDNSResult :=
  dns.Addrs.foldl
    (fun d ip => { d with ASNs := d.ASNs ++ [int64OfUint (LookupASN db ip).1] })
    { dns with ASNs := [] }

/-- Modelled from the spec: the marker that identifies the top-level operation
(`errorsx.TopLevelOperation`). -/
def TopLevelOperation : String := "top_level"

/-- Modelled from the spec: `errorsx.SafeErrWrapperBuilder.MaybeBuild` is
outside the files embedded here; the specification has every error wrapped with
the marker of the operation, and no error built when there is none. -/
def MaybeBuild (Error : Option GoError) (Operation : String) : Option GoError :=
  match Error with
  | none => none
  | some e => some (GoError.ErrWrapper Operation e)

/-- `Control(ctx, sess, thAddr, creq)`: the response and the error. -/
def Control (db : ASNDatabase) (sess : ExperimentSession) (thAddr : String)
    (creq : ControlRequest) : ControlResponse × Option GoError :=
  let posted := sess.DefaultHTTPClient.PostJSON thAddr "/" creq ControlResponse.zero
  let err := MaybeBuild posted.1 TopLevelOperation
  let out := posted.2
  ({ out with DNS := FillASNs db sess out.DNS }, err)

/-- The loop of `findTestHelper`: the first helper whose type is `https`. -/
def findTestHelperLoop : List Service → Option Service
  | [] => none
  | th :: rest => if th.Type_ = "https" then some th else findTestHelperLoop rest

/-- The helpers that `GetTestHelpersByName("web-connectivity")` hands to the
code: the declared list, or the nil list when the lookup fails. -/
def webConnectivityHelpers (e : ExperimentSession) : List Service :=
  match e.GetTestHelpersByName "web-connectivity" with
  | some testhelpers => testhelpers
  | none => []

/-- `findTestHelper(e)`; `none` is the nil helper. -/
def findTestHelper (e : ExperimentSession) : Option Service :=
  findTestHelperLoop (webConnectivityHelpers e)

/-- The part of `url.URL` read by the code. -/
structure URL where
  Scheme : String
  Host : String
  Path : String

/-- Indexing a Go `map[string]string`: the value stored under the key, or the
empty string. -/
def mapIndex (m : List (String × String)) (key : String) : String :=
  match m.lookup key with
  | some v => v
  | none => ""

/-- `strings.Split(s, sep)` for a separator of one character. -/
def Split (sep : Char) : List Char → List (List Char)
  | [] => [[]]
  | c :: cs =>
    if c = sep then [] :: Split sep cs
    else
      match Split sep cs with
      | [] => [[c]]
      | e :: es => (c :: e) :: es

/-- `strings.Contains(s, substr)`. -/
def Contains (substr : List Char) : List Char → Bool
  | [] => substr.isEmpty
  | c :: cs => substr.isPrefixOf (c :: cs) || Contains substr cs

/-- The loop of `discoverH3Server` over the entries of the header. -/
def discoverH3ServerLoop : List (List Char) → Bool
  | [] => false
  | e :: entries =>
    if Contains "h3".toList e then true else discoverH3ServerLoop entries

/-- `m.discoverH3Server(resp, URL)`. -/
def discoverH3Server (resp : ControlHTTPRequestResult) (URL : URL) : Bool :=
  if URL.Scheme ≠ "https" then false
  else
    let alt_svc := mapIndex resp.Headers "Alt-Svc"
    let entries := Split ';' alt_svc.toList
    discoverH3ServerLoop entries

/-- An ASN database that knows one address. -/
def exampleDB : ASNDatabase :=
  fun ip => if ip = "1.1.1.1" then some (13335, "CLOUDFLARENET") else none

/-- A session whose POST fails and which declares two test helpers. -/
def exampleSession : ExperimentSession :=
  { DefaultHTTPClient :=
      { PostJSON := fun _ _ _ out => (some (GoError.plain "eof_error"), out) }
    GetTestHelpersByName := fun name =>
      if name = "web-connectivity" then
        some [⟨"http://th.example.org", "legacy"⟩, ⟨"https://th.example.org", "https"⟩]
      else none }

/-- A DNS result with a known and an unknown address and stale ASNs. -/
def exampleDNS : ControlDNSResult :=
  { Failure := none, Addrs := ["1.1.1.1", "192.0.2.1"], ASNs := [7] }

/-- A control response that advertises HTTP/3. -/
def exampleH3Response : ControlHTTPRequestResult :=
  { BodyLength := 0, Failure := none, Title := "",
    Headers := [("Alt-Svc", "h3=\":443\"; ma=2592000")], StatusCode := 200 }

/-! ## enginenetx: the engine network -/

/-- The part of `model.Resolver` used by `Close`, acting on a state `σ` of the
world outside the network. -/
structure Resolver (σ : Type) where
  CloseIdleConnections : σ → σ

/-- The part of `model.HTTPTransport` used by `Close`. -/
structure HTTPTransport (σ : Type) where
  CloseIdleConnections : σ → σ

/-- The part of `HTTPSDialerStatsManager` used by `Close`: its own `Close`,
which persists the statistics and returns an error or nil. -/
structure HTTPSDialerStatsManager (σ : Type) where
  Close : σ → Option GoError × σ

/-- The `Network` of the engine. -/
structure Network (σ : Type) where
  reso : Resolver σ
  stats : HTTPSDialerStatsManager σ
  txp : HTTPTransport σ

/-- `n.Close()`: the returned error and the state of the world afterwards. -/
def Network.Close {σ : Type} (n : Network σ) (w : σ) : Option GoError × σ :=
  let w1 := n.txp.CloseIdleConnections w
  let w2 := n.reso.CloseIdleConnections w1
  n.stats.Close w2

/-- The calls that `Close` can make on the parts of the network. -/
inductive CloseCall where
  | txpCloseIdleConnections
  | resoCloseIdleConnections
  | statsClose
  deriving DecidableEq

/-- The same network with every method also recording its call, in order, in
a log kept next to the state of the world. -/
def Network.recording {σ : Type} (n : Network σ) : Network (σ × List CloseCall) :=
  { reso := ⟨fun w =>
      (n.reso.CloseIdleConnections w.1, w.2 ++ [CloseCall.resoCloseIdleConnections])⟩
    stats := ⟨fun w =>
      ((n.stats.Close w.1).1, ((n.stats.Close w.1).2, w.2 ++ [CloseCall.statsClose]))⟩
    txp := ⟨fun w =>
      (n.txp.CloseIdleConnections w.1, w.2 ++ [CloseCall.txpCloseIdleConnections])⟩ }

/-- A dialing policy: for a domain and a port, the ordered sequence of
tactics to attempt. -/
structure HTTPSDialerPolicy (Tactic : Type) where
  LookupTactics : String → String → List Tactic

/-- `newHTTPSDialerPolicy(kvStore, logger, resolver)`.  The two constructors it
calls come as parameters: `HTTPSDialerNullPolicy` builds the null policy from
the logger and the resolver, `NewHTTPSDialerStaticPolicy` builds the policy
persisted in the key-value store or fails. -/
def newHTTPSDialerPolicy {KV L R Tactic : Type}
    (HTTPSDialerNullPolicy : L → R → HTTPSDialerPolicy Tactic)
    (NewHTTPSDialerStaticPolicy :
      KV → HTTPSDialerPolicy Tactic → Except GoError (HTTPSDialerPolicy Tactic))
    (kvStore : KV) (logger : L) (resolver : R) : HTTPSDialerPolicy Tactic :=
  let fallback := HTTPSDialerNullPolicy logger resolver
  match NewHTTPSDialerStaticPolicy kvStore fallback with
  | Except.error _ => fallback
  | Except.ok policy => policy

/-- A network on a world that counts the bytes still to flush: closing the
statistics fails while any remain. -/
def exampleNetwork : Network Nat :=
  { reso := ⟨fun w => w⟩
    stats := ⟨fun w => (if w = 0 then none else some (GoError.plain "kvstore: cannot set"), w)⟩
    txp := ⟨fun w => w + 1⟩ }

/-- A null policy for the examples: one tactic, the domain itself. -/
def exampleNullPolicy : Unit → Unit → HTTPSDialerPolicy String :=
  fun _ _ => ⟨fun domain _ => [domain]⟩

/-- A static-policy constructor that finds the persisted blob corrupted. -/
def exampleCorruptStatic :
    Unit → HTTPSDialerPolicy String → Except GoError (HTTPSDialerPolicy String) :=
  fun _ _ => Except.error (GoError.plain "invalid character in JSON")

/-! ## measurexlite: NewTrace -/

/-- The buffer size of the `NetworkEvent` channel. -/
def NetworkEventBufferSize : Nat := 64

/-- The buffer size of the `TCPConnect` channel. -/
def TCPConnectBufferSize : Nat := 8

/-- The buffer size of the `TLSHandshake` channel. -/
def TLSHandshakeBufferSize : Nat := 8

/-- `NewTrace(index, zeroTime)`. -/
def NewTrace (NE TH : Type) (index : Int) (zeroTime : Time) : Trace NE TH :=
  { Index := index
    NetworkEvent := Chan.make NE NetworkEventBufferSize
    TCPConnect := Chan.make ArchivalTCPConnectResult TCPConnectBufferSize
    TLSHandshake := Chan.make TH TLSHandshakeBufferSize
    ZeroTime := zeroTime }

/-! ## 64-bit integers -/

/-- The value an `int64` holds after an operation whose exact result is `x`:
`x` reduced modulo `2^64` into the signed range. -/
def wrapInt64 (x : Int) : Int := (x + 2 ^ 63) % 2 ^ 64 - 2 ^ 63

/-- The largest `int64`. -/
def maxInt64 : Int := 2 ^ 63 - 1

/-! ## tlsmiddlebox: the configuration -/

/-- The `Config` of the tlsmiddlebox experiment. -/
structure Config where
  ResolverURL : String
  SNIControl : String
  Delay : Int
  MaxTTL : Int
  TestHelper : String
  ClientId : Int

/-- `time.Millisecond`, in nanoseconds. -/
def Millisecond : Int := 1000000

/-- `c.delay()`: the product is an `int64` multiplication. -/
def Config.delay (c : Config) : Int :=
  if c.Delay > 0 then wrapInt64 (c.Delay * Millisecond)
  else 100 * Millisecond

/-- A configuration whose delay, in milliseconds, does not fit 64-bit
nanoseconds. -/
def exampleHugeDelay : Config :=
  { ResolverURL := "", SNIControl := "", Delay := 9223372036855, MaxTTL := 0,
    TestHelper := "", ClientId := 0 }

/-- A configuration with a delay of 250 milliseconds. -/
def exampleDelay250 : Config :=
  { ResolverURL := "", SNIControl := "", Delay := 250, MaxTTL := 0,
    TestHelper := "", ClientId := 0 }

/-! ## libooniengine: tasks -/

/-- The buffer of the events channel of a task. -/
def taskEventsBuffer : Nat := 1024

/-- A `context.Context`, as far as the task code uses it: its deadline, if it
has one. -/
structure Context where
  deadline : Option Time
  deriving DecidableEq

/-- `context.Background()`. -/
def Background : Context := ⟨none⟩

/-- `context.WithCancel(parent)`: no deadline is added. -/
def WithCancel (parent : Context) : Context := parent

/-- `t.Add(d)`. -/
def Time.Add (t : Time) (d : Int) : Time := ⟨t.ns + d⟩

/-- `context.WithDeadline(parent, d)`: an earlier deadline of the parent is
kept. -/
def WithDeadline (parent : Context) (d : Time) : Context :=
  match parent.deadline with
  | some cur => if cur.ns < d.ns then WithCancel parent else ⟨some d⟩
  | none => ⟨some d⟩

/-- `context.WithTimeout(parent, timeout)`, called at the instant `now`. -/
def WithTimeout (now : Time) (parent : Context) (timeout : Int) : Context :=
  WithDeadline parent (now.Add timeout)

/-- `contextForWaitForNextEvent(timeo)`, called at the instant `now`. -/
def contextForWaitForNextEvent (now : Time) (timeo : Int) : Context :=
  let ctx := Background
  if timeo < 0 then WithCancel ctx
  else WithTimeout now ctx timeo

/-- The state of a task: whether `cancel` was called, the `done` counter, the
events channel, and whether the `stopped` channel is closed. -/
structure taskState (R : Type) where
  cancelled : Bool
  done : Int
  events : Chan R
  stopped : Bool

/-- The state that `startTask` builds, before the task runs. -/
def startTask (R : Type) : taskState R :=
  { cancelled := false
    done := 0
    events := Chan.make R taskEventsBuffer
    stopped := false }

/-- The case of the outer `select` of `waitForNextEvent` that fires: the
context is done, an event is received, or the stopped channel is closed. -/
inductive Ready where
  | ctxDone
  | events
  | stopped
  deriving DecidableEq

/-- `tp.waitForNextEvent(timeout)`, called at `now`, when the case `ready` of
its `select` fires: the returned event (`none` is nil) and the state
afterwards.  The result is `none` when that case cannot fire in this state:
the context is done only when its deadline expires, an event is received only
when one is buffered, and the stopped case needs the channel closed.  A call
for which no case can fire is blocked. -/
def taskState.waitForNextEvent {R : Type} (tp : taskState R) (now : Time)
    (timeout : Int) (ready : Ready) : Option (Option R × taskState R) :=
  let ctx := contextForWaitForNextEvent now timeout
  match ready with
  | Ready.ctxDone => if ctx.deadline ≠ none then some (none, tp) else none
  | Ready.events =>
    match tp.events.tryRecv with
    | some (ev, ch) => some (some ev, { tp with events := ch })
    | none => none
  | Ready.stopped =>
    if tp.stopped then
      match tp.events.tryRecv with
      | some (ev, ch) => some (some ev, { tp with events := ch })
      | none => some (none, { tp with done := wrapInt64 (tp.done + 1) })
    else none

/-- `tp.isDone()`. -/
def taskState.isDone {R : Type} (tp : taskState R) : Bool := tp.done > 0

/-- `tp.interrupt()`. -/
def taskState.interrupt {R : Type} (tp : taskState R) : taskState R :=
  { tp with cancelled := true }

/-- What can happen to a task.  The goroutine running `main` emits events with
`maybeEmitEvent`, which buffers the event when there is room and discards it
otherwise, and as its last act closes `stopped` (the deferred `close` was
registered first, so it runs after the deferred emission).  The caller calls
`waitForNextEvent` and `interrupt`. -/
inductive Action (R : Type) where
  | emit (ev : R)
  | closeStopped
  | wait (now : Time) (timeout : Int) (ready : Ready)
  | interrupt

/-- One action on a task; `none` when the action cannot happen in this state:
`main` emits nothing after it closed `stopped`, and closes it once. -/
def taskState.step {R : Type} (tp : taskState R) : Action R → Option (taskState R)
  | Action.emit ev =>
    if tp.stopped then none else some { tp with events := tp.events.trySend ev }
  | Action.closeStopped =>
    if tp.stopped then none else some { tp with stopped := true }
  | Action.wait now timeout ready =>
    match tp.waitForNextEvent now timeout ready with
    | some r => some r.2
    | none => none
  | Action.interrupt => some tp.interrupt

/-- A sequence of actions, from the first on. -/
def taskState.run {R : Type} : taskState R → List (Action R) → Option (taskState R)
  | tp, [] => some tp
  | tp, a :: rest =>
    match tp.step a with
    | some tp1 => taskState.run tp1 rest
    | none => none

/-- A short life of a task: one event, the stop, and two waits without
timeout, the second of which finds the queue drained. -/
def exampleActions : List (Action String) :=
  [ Action.emit "status.started", Action.closeStopped,
    Action.wait ⟨0⟩ (-1) Ready.events, Action.wait ⟨0⟩ (-1) Ready.stopped ]

/-! ## enginenetx: the HTTPS dialer -/

/-- One entry that the dialer records in the stats manager. -/
inductive StatsRecord (Tactic : Type) where
  | success (tactic : Tactic)
  | failure (tactic : Tactic) (reason : GoError)
  deriving DecidableEq

/-- The tactic that a record is about. -/
def StatsRecord.tactic {Tactic : Type} : StatsRecord Tactic → Tactic
  | StatsRecord.success t => t
  | StatsRecord.failure t _ => t

/-- Whether a record is a failure. -/
def StatsRecord.isFailure {Tactic : Type} : StatsRecord Tactic → Bool
  | StatsRecord.success _ => false
  | StatsRecord.failure _ _ => true

/-- The error of a dial for which the policy produced no tactic; the
specification leaves this case open and only asks that a failure is never
swallowed. -/
def errNoTactics : GoError := GoError.plain "enginenetx: no tactics to dial"

/-- Modelled from the spec: the dial loop of the HTTPS dialer is outside the
files embedded here (`NewNetwork` only constructs the dialer).  The
specification has it attempt each tactic in order; on success record a success
against the winning tactic and return the connection; on failure record a
failure against that tactic and continue with the next; and, if all fail,
return the last failure.  `last` is the failure to return, `stats` the records
of the stats manager so far. -/
def dialTactics {Tactic Conn : Type} (attempt : Tactic → Except GoError Conn) :
    List Tactic → GoError → List (StatsRecord Tactic) →
      Except GoError Conn × List (StatsRecord Tactic)
  | [], last, stats => (Except.error last, stats)
  | t :: rest, _, stats =>
    match attempt t with
    | Except.ok conn => (Except.ok conn, stats ++ [StatsRecord.success t])
    | Except.error e => dialTactics attempt rest e (stats ++ [StatsRecord.failure t e])

/-- Modelled from the spec: one dial of the HTTPS dialer built by
`NewHTTPSDialer(logger, netx, policy, stats)`: the ordered tactics are obtained
once from the policy, then attempted in that order. -/
def DialTLSContext {Tactic Conn : Type} (policy : HTTPSDialerPolicy Tactic)
    (attempt : Tactic → Except GoError Conn) (stats : List (StatsRecord Tactic))
    (domain port : String) : Except GoError Conn × List (StatsRecord Tactic) :=
  dialTactics attempt (policy.LookupTactics domain port) errNoTactics stats

/-- A policy with two tactics for every domain. -/
def exampleTwoTactics : HTTPSDialerPolicy String :=
  ⟨fun _ _ => ["S1", "S2"]⟩

/-- An attempt that fails for `S1` and connects for every other tactic. -/
def exampleAttempt : String → Except GoError Nat :=
  fun t => if t = "S1" then Except.error (GoError.plain "connection_reset") else Except.ok 7

/-! ## nwebconnectivity: the Alt-Svc heuristic as a plain substring match -/

/-- The reading of the heuristic that the claim compares the code with: the
value stored under the exact key `Alt-Svc` contains `h3` somewhere. -/
def altSvcValueContainsH3 (resp : ControlHTTPRequestResult) : Bool :=
  Contains "h3".toList (mapIndex resp.Headers "Alt-Svc").toList

/-- A response whose only `h3` sits inside an unrelated token. -/
def exampleUnrelatedToken : ControlHTTPRequestResult :=
  { BodyLength := 0, Failure := none, Title := "",
    Headers := [("Alt-Svc", "h2=\":443\"; ma=3600; foo=xh3y")], StatusCode := 200 }

/-- A response whose header is stored under a differently cased key. -/
def exampleLowerCaseKey : ControlHTTPRequestResult :=
  { BodyLength := 0, Failure := none, Title := "",
    Headers := [("alt-svc", "h3=\":443\"; ma=2592000")], StatusCode := 200 }

/-! ## Lemmas on channels and the trace -/

theorem tcpConnectsLoop_eq {α : Type} (cap : Nat) (buf out : List α) :
    tcpConnectsLoop cap buf out = (out ++ buf, ⟨cap, []⟩) := by
  induction buf generalizing out with
  | nil => simp [tcpConnectsLoop]
  | cons ev rest ih => simp [tcpConnectsLoop, ih]

/-- One turn of the drain loop is one `select` on the channel. -/
theorem tcpConnectsLoop_step {α : Type} (ch : Chan α) (out : List α) :
    tcpConnectsLoop ch.cap ch.buf out =
      match ch.tryRecv with
      | none => (out, ch)
      | some (ev, ch1) => tcpConnectsLoop ch1.cap ch1.buf (out ++ [ev]) := by
  cases ch with
  | mk cap buf =>
    cases buf with
    | nil => simp [tcpConnectsLoop, Chan.tryRecv]
    | cons ev rest => simp [tcpConnectsLoop, Chan.tryRecv]

theorem TCPConnects_eq {NE TH : Type} (tx : Trace NE TH) :
    tx.TCPConnects =
      (tx.TCPConnect.buf, { tx with TCPConnect := ⟨tx.TCPConnect.cap, []⟩ }) := by
  simp [Trace.TCPConnects, tcpConnectsLoop_eq]

theorem onConnectDoneAll_tcp {NE TH : Type} (env : Env)
    (calls : List ConnectDone) :
    ∀ tx : Trace NE TH,
      (∀ c ∈ calls, c.network = "tcp" ∨ c.network = "tcp4" ∨ c.network = "tcp6") →
      tx.TCPConnect.buf.length ≤ tx.TCPConnect.cap →
      onConnectDoneAll env tx calls =
        { tx with
          TCPConnect :=
            ⟨tx.TCPConnect.cap,
              tx.TCPConnect.buf ++
                (calls.take (tx.TCPConnect.cap - tx.TCPConnect.buf.length)).map
                  (recordOf env tx)⟩ } := by
  induction calls with
  | nil =>
    intro tx _ _
    cases tx with
    | mk i ne tc th z => cases tc; simp [onConnectDoneAll]
  | cons c cs ih =>
    intro tx hnet hle
    have hc : c.network = "tcp" ∨ c.network = "tcp4" ∨ c.network = "tcp6" :=
      hnet c (List.mem_cons_self c cs)
    have hcs : ∀ d ∈ cs, d.network = "tcp" ∨ d.network = "tcp4" ∨ d.network = "tcp6" :=
      fun d hd => hnet d (List.mem_cons_of_mem c hd)
    have hfold : onConnectDoneAll env tx (c :: cs) =
        onConnectDoneAll env
          (tx.OnConnectDone env c.started c.network c.domain c.remoteAddr c.err
            c.finished) cs := by
      simp [onConnectDoneAll]
    rw [hfold]
    cases tx with
    | mk i ne tc th z =>
      cases tc with
      | mk cap buf =>
        simp only at hle
        by_cases hfull : buf.length < cap
        · have hstep : (Trace.mk i ne (Chan.mk cap buf) th z).OnConnectDone env
              c.started c.network c.domain c.remoteAddr c.err c.finished =
              Trace.mk i ne (Chan.mk cap (buf ++ [recordOf env
                (Trace.mk i ne (Chan.mk cap buf) th z) c])) th z := by
            simp [Trace.OnConnectDone, Chan.trySend, hc, hfull, recordOf]
          rw [hstep, ih _ hcs (by simp; omega)]
          obtain ⟨m, hm⟩ : ∃ m, cap - buf.length = m + 1 := ⟨cap - buf.length - 1, by omega⟩
          have hm2 : cap - (buf.length + 1) = m := by omega
          have hrec : recordOf env (Trace.mk i ne (Chan.mk cap (buf ++ [recordOf env
              (Trace.mk i ne (Chan.mk cap buf) th z) c])) th z) =
              recordOf env (Trace.mk i ne (Chan.mk cap buf) th z) := by
            funext d
            rfl
          simp [hm, hm2, hrec]
        · have hstep : (Trace.mk i ne (Chan.mk cap buf) th z).OnConnectDone env
              c.started c.network c.domain c.remoteAddr c.err c.finished =
              Trace.mk i ne (Chan.mk cap buf) th z := by
            simp [Trace.OnConnectDone, Chan.trySend, hc, hfull]
          rw [hstep, ih _ hcs (by simpa using hle)]
          have h0 : cap - buf.length = 0 := by omega
          simp [h0]

/-! ## Claims on the trace queue -/

/-- C1: from a trace whose TCPConnect queue is empty with capacity `C`, after
`C + k` calls of `OnConnectDone` (with `k > 0`) whose network is one of tcp,
tcp4, tcp6, one call of `TCPConnects` returns exactly `C` records: those of the
first `C` calls, in call order.  Both operations are total functions of the
trace, so no call blocks or fails. -/
theorem C1_overflow_keeps_first_C {NE TH : Type} (env : Env) (tx : Trace NE TH)
    (C k : Nat) (calls : List ConnectDone)
    (hcap : tx.TCPConnect.cap = C) (hempty : tx.TCPConnect.buf = [])
    (hk : 0 < k) (hlen : calls.length = C + k)
    (hnet : ∀ c ∈ calls,
      c.network = "tcp" ∨ c.network = "tcp4" ∨ c.network = "tcp6") :
    (onConnectDoneAll env tx calls).TCPConnects.1 =
        (calls.take C).map (recordOf env tx) ∧
      ((onConnectDoneAll env tx calls).TCPConnects.1).length = C ∧
      (calls.drop C).length = k ∧
      ((onConnectDoneAll env tx calls).TCPConnects.1).length < calls.length := by
  have h := onConnectDoneAll_tcp env calls tx hnet (by simp [hempty])
  rw [h, TCPConnects_eq]
  simp [hempty, hcap, hlen, hk]

/-- C2: `TCPConnects` on a trace whose TCPConnect queue is empty returns the
empty sequence and leaves the trace unchanged; hence, for every trace, after a
first `TCPConnects` every further call, however many came before it, returns
the empty sequence and changes nothing. -/
theorem C2_drain_empty_repeatable {NE TH : Type} :
    (∀ tx : Trace NE TH, tx.TCPConnect.buf = [] → tx.TCPConnects = ([], tx)) ∧
      (∀ (tx : Trace NE TH) (n : Nat),
        (drainAgain n tx.TCPConnects.2).TCPConnects =
          ([], tx.TCPConnects.2)) := by
  have hfirst : ∀ tx : Trace NE TH, tx.TCPConnect.buf = [] →
      tx.TCPConnects = ([], tx) := by
    intro tx h
    cases tx with
    | mk i ne tc th z =>
      cases tc with
      | mk cap buf =>
        simp only at h
        subst h
        simp [TCPConnects_eq]
  refine ⟨hfirst, ?_⟩
  intro tx n
  have hbuf : tx.TCPConnects.2.TCPConnect.buf = [] := by simp [TCPConnects_eq]
  have hstable : ∀ m, drainAgain m tx.TCPConnects.2 = tx.TCPConnects.2 := by
    intro m
    induction m with
    | zero => rfl
    | succ m ih =>
      show drainAgain m (tx.TCPConnects.2).TCPConnects.2 = _
      rw [hfirst _ hbuf]
      exact ih
  rw [hstable n]
  exact hfirst _ hbuf

/-- The witness of C1: capacity one, two calls, the second is dropped. -/
theorem C1_overflow_keeps_first_C_witness :
    (onConnectDoneAll exampleEnv exampleTrace exampleCalls).TCPConnects.1 =
        (exampleCalls.take 1).map (recordOf exampleEnv exampleTrace) ∧
      ((onConnectDoneAll exampleEnv exampleTrace exampleCalls).TCPConnects.1).length = 1 ∧
      (exampleCalls.drop 1).length = 1 ∧
      ((onConnectDoneAll exampleEnv exampleTrace exampleCalls).TCPConnects.1).length <
        exampleCalls.length :=
  C1_overflow_keeps_first_C exampleEnv exampleTrace 1 1 exampleCalls rfl rfl
    (by decide) rfl (by decide)

/-- The witness of C2: the example trace has an empty queue, so a drain
returns nothing and changes nothing. -/
theorem C2_drain_empty_repeatable_witness :
    exampleTrace.TCPConnects = ([], exampleTrace) :=
  (@C2_drain_empty_repeatable Unit Unit).1 exampleTrace rfl

/-! ## Lemmas on the control comparator -/

theorem FillASNs_foldl (db : ASNDatabase) (addrs : List String) :
    ∀ d : ControlDNSResult,
      addrs.foldl
          (fun d ip => { d with ASNs := d.ASNs ++ [int64OfUint (LookupASN db ip).1] })
          d =
        { d with
          ASNs := d.ASNs ++ addrs.map (fun ip => int64OfUint (LookupASN db ip).1) } := by
  induction addrs with
  | nil => intro d; simp
  | cons ip rest ih => intro d; simp [ih]

theorem FillASNs_eq (db : ASNDatabase) (sess : ExperimentSession)
    (dns : ControlDNSResult) :
    FillASNs db sess dns =
      { dns with ASNs := dns.Addrs.map (fun ip => int64OfUint (LookupASN db ip).1) } := by
  simp [FillASNs, FillASNs_foldl]

theorem int64OfUint_small (n : Nat) (h : n < 2 ^ 63) : int64OfUint n = (n : Int) := by
  have h1 : n % 2 ^ 64 = n := Nat.mod_eq_of_lt (by omega)
  unfold int64OfUint
  rw [h1, if_pos h]

theorem findTestHelperLoop_none (l : List Service) :
    findTestHelperLoop l = none ↔ ∀ th ∈ l, th.Type_ ≠ "https" := by
  induction l with
  | nil => simp [findTestHelperLoop]
  | cons th rest ih =>
    by_cases h : th.Type_ = "https"
    · simp [findTestHelperLoop, h]
    · simp [findTestHelperLoop, h, ih]

theorem findTestHelperLoop_some (l : List Service) (th : Service) :
    findTestHelperLoop l = some th ↔
      ∃ before after, l = before ++ th :: after ∧ th.Type_ = "https" ∧
        ∀ x ∈ before, x.Type_ ≠ "https" := by
  induction l with
  | nil => simp [findTestHelperLoop]
  | cons a rest ih =>
    by_cases h : a.Type_ = "https"
    · constructor
      · intro hs
        have ha : a = th := by simpa [findTestHelperLoop, h] using hs
        subst ha
        exact ⟨[], rest, rfl, h, by simp⟩
      · rintro ⟨before, after, hl, _, hb⟩
        cases before with
        | nil =>
          have ha : a = th := by simpa using (List.cons.inj hl).1
          subst ha
          simp [findTestHelperLoop, h]
        | cons b bs =>
          have hab : a = b := (List.cons.inj hl).1
          exact absurd (hab ▸ h) (hb b (List.mem_cons_self b bs))
    · constructor
      · intro hs
        have hr : findTestHelperLoop rest = some th := by
          simpa [findTestHelperLoop, h] using hs
        obtain ⟨before, after, hl, ht, hb⟩ := ih.mp hr
        refine ⟨a :: before, after, by simp [hl], ht, ?_⟩
        intro x hx
        rcases List.mem_cons.mp hx with hxa | hxb
        · exact hxa ▸ h
        · exact hb x hxb
      · rintro ⟨before, after, hl, ht, hb⟩
        cases before with
        | nil =>
          have ha : a = th := by simpa using (List.cons.inj hl).1
          exact absurd (ha ▸ ht) h
        | cons b bs =>
          have hrest : rest = bs ++ th :: after := by simpa using (List.cons.inj hl).2
          have hr : findTestHelperLoop rest = some th :=
            ih.mpr ⟨bs, after, hrest, ht, fun x hx => hb x (List.mem_cons_of_mem b hx)⟩
          simpa [findTestHelperLoop, h] using hr

theorem mapIndex_absent (m : List (String × String)) (key : String)
    (h : m.lookup key = none) : mapIndex m key = "" := by
  simp [mapIndex, h]

theorem mapIndex_present (m : List (String × String)) (key v : String)
    (h : m.lookup key = some v) : mapIndex m key = v := by
  simp [mapIndex, h]

/-! ## Claims on the control comparator -/

/-- C3: for a DNS result with `N` addresses and any ASN database, `FillASNs`
leaves a list of exactly `N` numbers, the one at position `i` being the number
looked up for the address at position `i` (converted with `int64`, which keeps
every number below `2^63`); a failed lookup contributes 0 at its position. -/
theorem C3_FillASNs_length_and_order (db : ASNDatabase) (sess : ExperimentSession)
    (dns : ControlDNSResult) :
    (FillASNs db sess dns).ASNs.length = dns.Addrs.length ∧
      (FillASNs db sess dns).ASNs =
        dns.Addrs.map (fun ip => int64OfUint (LookupASN db ip).1) ∧
      ∀ (i : Nat) (ip : String), dns.Addrs[i]? = some ip →
        (FillASNs db sess dns).ASNs[i]? = some (int64OfUint (LookupASN db ip).1) ∧
        ((LookupASN db ip).2.2 ≠ none → (FillASNs db sess dns).ASNs[i]? = some 0) ∧
        (∀ asn org, db ip = some (asn, org) → asn < 2 ^ 63 →
          (FillASNs db sess dns).ASNs[i]? = some (asn : Int)) := by
  rw [FillASNs_eq]
  refine ⟨by simp, rfl, ?_⟩
  intro i ip hi
  have hget : (dns.Addrs.map (fun ip => int64OfUint (LookupASN db ip).1))[i]? =
      some (int64OfUint (LookupASN db ip).1) := by
    simp [List.getElem?_map, hi]
  refine ⟨hget, ?_, ?_⟩
  · intro hfail
    rw [hget]
    cases hdb : db ip with
    | none => simp [LookupASN, hdb, int64OfUint]
    | some r => simp [LookupASN, hdb] at hfail
  · intro asn org hdb hlt
    rw [hget]
    simp [LookupASN, hdb, int64OfUint_small asn hlt]

/-- The witness of C3: the second address of the example is unknown to the
database and contributes 0 at position 1. -/
theorem C3_FillASNs_length_and_order_witness :
    (FillASNs exampleDB exampleSession exampleDNS).ASNs[1]? = some 0 :=
  ((C3_FillASNs_length_and_order exampleDB exampleSession exampleDNS).2.2
    1 "192.0.2.1" rfl).2.1 (by decide)

/-- C4: `discoverH3Server` returns false for every URL whose scheme is not
exactly `https`, whatever the response; false for every https URL when the
response has no `Alt-Svc` header; and true for an https URL when the header is
`h3=":443"; ma=2592000`. -/
theorem C4_discoverH3Server_cases :
    (∀ (resp : ControlHTTPRequestResult) (u : URL),
        u.Scheme ≠ "https" → discoverH3Server resp u = false) ∧
      (∀ (resp : ControlHTTPRequestResult) (u : URL),
        u.Scheme = "https" → resp.Headers.lookup "Alt-Svc" = none →
          discoverH3Server resp u = false) ∧
      (∀ (resp : ControlHTTPRequestResult) (u : URL),
        u.Scheme = "https" →
          resp.Headers.lookup "Alt-Svc" = some "h3=\":443\"; ma=2592000" →
          discoverH3Server resp u = true) := by
  refine ⟨?_, ?_, ?_⟩
  · intro resp u h
    simp [discoverH3Server, h]
  · intro resp u h hnone
    simp only [discoverH3Server, h, mapIndex_absent _ _ hnone]
    decide
  · intro resp u h hsome
    simp only [discoverH3Server, h, mapIndex_present _ _ _ hsome]
    decide

/-- The witness of C4: the example response on an https URL. -/
theorem C4_discoverH3Server_cases_witness :
    discoverH3Server exampleH3Response ⟨"https", "example.org", "/"⟩ = true :=
  C4_discoverH3Server_cases.2.2 exampleH3Response ⟨"https", "example.org", "/"⟩
    rfl (by decide)

/-- C6: `Control` returns a nil error exactly when the JSON POST succeeds; when
the POST fails the returned error is that failure wrapped with the top-level
operation marker; and the returned error is the same whatever the ASN database
answers, so a failed lookup does not make `Control` fail. -/
theorem C6_Control_error (db : ASNDatabase) (sess : ExperimentSession)
    (thAddr : String) (creq : ControlRequest) :
    ((Control db sess thAddr creq).2 = none ↔
        (sess.DefaultHTTPClient.PostJSON thAddr "/" creq ControlResponse.zero).1 = none) ∧
      (∀ e : GoError,
        (sess.DefaultHTTPClient.PostJSON thAddr "/" creq ControlResponse.zero).1 = some e →
          (Control db sess thAddr creq).2 =
            some (GoError.ErrWrapper TopLevelOperation e)) ∧
      (∀ db2 : ASNDatabase,
        (Control db2 sess thAddr creq).2 = (Control db sess thAddr creq).2) := by
  refine ⟨?_, ?_, ?_⟩
  · cases h : (sess.DefaultHTTPClient.PostJSON thAddr "/" creq ControlResponse.zero).1 with
    | none => simp [Control, MaybeBuild, h]
    | some e => simp [Control, MaybeBuild, h]
  · intro e h
    simp [Control, MaybeBuild, h]
  · intro db2
    rfl

/-- The witness of C6: the POST of the example session fails and `Control`
returns the failure wrapped. -/
theorem C6_Control_error_witness :
    (Control exampleDB exampleSession "https://th.example.org" ⟨"", [], [], []⟩).2 =
      some (GoError.ErrWrapper TopLevelOperation (GoError.plain "eof_error")) :=
  (C6_Control_error exampleDB exampleSession "https://th.example.org"
    ⟨"", [], [], []⟩).2.1 (GoError.plain "eof_error") rfl

/-- C7: `findTestHelper` returns nil if and only if no helper declared for
`web-connectivity` has type exactly `https`, in particular when the lookup
fails or the list is empty; and it returns a helper `th` exactly when the
declared list is `before ++ th :: after` with `th` of type exactly `https` and
no helper of `before` of that type, so `th` is the first such helper in list
order and never a made-up default. -/
theorem C7_findTestHelper (e : ExperimentSession) :
    (findTestHelper e = none ↔
        ∀ declared, e.GetTestHelpersByName "web-connectivity" = some declared →
          ∀ th ∈ declared, th.Type_ ≠ "https") ∧
      (∀ th : Service, findTestHelper e = some th ↔
        ∃ before after,
          e.GetTestHelpersByName "web-connectivity" = some (before ++ th :: after) ∧
            th.Type_ = "https" ∧ ∀ x ∈ before, x.Type_ ≠ "https") ∧
      (e.GetTestHelpersByName "web-connectivity" = none → findTestHelper e = none) ∧
      (e.GetTestHelpersByName "web-connectivity" = some [] →
        findTestHelper e = none) := by
  cases hl : e.GetTestHelpersByName "web-connectivity" with
  | none =>
    have hnil : findTestHelper e = none := by
      simp [findTestHelper, webConnectivityHelpers, hl, findTestHelperLoop]
    refine ⟨?_, ?_, fun _ => hnil, fun _ => hnil⟩
    · simp [hnil]
    · intro th
      simp [hnil]
  | some declared =>
    have hfind : findTestHelper e = findTestHelperLoop declared := by
      simp [findTestHelper, webConnectivityHelpers, hl]
    refine ⟨?_, ?_, ?_, ?_⟩
    · rw [hfind, findTestHelperLoop_none]
      constructor
      · intro h l hsome
        have hld : declared = l := Option.some.inj hsome
        rw [← hld]
        exact h
      · intro h
        exact h declared rfl
    · intro th
      rw [hfind, findTestHelperLoop_some]
      constructor
      · rintro ⟨before, after, hdec, ht, hb⟩
        exact ⟨before, after, by rw [hdec], ht, hb⟩
      · rintro ⟨before, after, hdec, ht, hb⟩
        exact ⟨before, after, Option.some.inj hdec, ht, hb⟩
    · intro h
      exact absurd h (by simp)
    · intro h
      have hd : declared = [] := Option.some.inj h
      rw [hfind, hd]
      rfl

/-- The witness of C7: the example session declares a legacy helper and then
an `https` helper; the `https` one is returned. -/
theorem C7_findTestHelper_witness :
    findTestHelper exampleSession = some ⟨"https://th.example.org", "https"⟩ :=
  ((C7_findTestHelper exampleSession).2.1 ⟨"https://th.example.org", "https"⟩).mpr
    ⟨[⟨"http://th.example.org", "legacy"⟩], [], rfl, rfl, by decide⟩

/-! ## Claims on the engine network -/

/-- C5: whatever its parts do, `Network.Close` closes the idle connections of
the transport, closes the idle connections of the resolver and calls the
`Close` of the stats manager, each exactly once, before it returns, and it
returns exactly the error (or nil) that the stats manager's `Close` returned. -/
theorem C5_Network_Close {σ : Type} (n : Network σ) (w : σ) (log : List CloseCall) :
    n.recording.Close (w, log) =
        ((n.stats.Close (n.reso.CloseIdleConnections (n.txp.CloseIdleConnections w))).1,
          ((n.stats.Close (n.reso.CloseIdleConnections (n.txp.CloseIdleConnections w))).2,
            log ++ [CloseCall.txpCloseIdleConnections, CloseCall.resoCloseIdleConnections,
              CloseCall.statsClose])) ∧
      (n.Close w).1 =
        (n.stats.Close (n.reso.CloseIdleConnections (n.txp.CloseIdleConnections w))).1 ∧
      (n.recording.Close (w, log)).1 = (n.Close w).1 ∧
      (n.recording.Close (w, log)).2.1 = (n.Close w).2 := by
  simp [Network.Close, Network.recording]

/-- C8: `newHTTPSDialerPolicy` always returns a policy: when the construction
of the persisted policy returns an error the result is the null fallback
policy itself, which gives, for every domain and port, the tactics of a
freshly constructed null policy; when the construction succeeds the result is
the constructed policy. -/
theorem C8_newHTTPSDialerPolicy {KV L R Tactic : Type}
    (HTTPSDialerNullPolicy : L → R → HTTPSDialerPolicy Tactic)
    (NewHTTPSDialerStaticPolicy :
      KV → HTTPSDialerPolicy Tactic → Except GoError (HTTPSDialerPolicy Tactic))
    (kvStore : KV) (logger : L) (resolver : R) :
    (∀ err : GoError,
        NewHTTPSDialerStaticPolicy kvStore (HTTPSDialerNullPolicy logger resolver) =
          Except.error err →
        newHTTPSDialerPolicy HTTPSDialerNullPolicy NewHTTPSDialerStaticPolicy
            kvStore logger resolver = HTTPSDialerNullPolicy logger resolver ∧
          ∀ domain port : String,
            (newHTTPSDialerPolicy HTTPSDialerNullPolicy NewHTTPSDialerStaticPolicy
              kvStore logger resolver).LookupTactics domain port =
              (HTTPSDialerNullPolicy logger resolver).LookupTactics domain port) ∧
      (∀ policy : HTTPSDialerPolicy Tactic,
        NewHTTPSDialerStaticPolicy kvStore (HTTPSDialerNullPolicy logger resolver) =
          Except.ok policy →
        newHTTPSDialerPolicy HTTPSDialerNullPolicy NewHTTPSDialerStaticPolicy
          kvStore logger resolver = policy) := by
  constructor
  · intro err h
    have hres : newHTTPSDialerPolicy HTTPSDialerNullPolicy NewHTTPSDialerStaticPolicy
        kvStore logger resolver = HTTPSDialerNullPolicy logger resolver := by
      simp [newHTTPSDialerPolicy, h]
    exact ⟨hres, fun domain port => by rw [hres]⟩
  · intro policy h
    simp [newHTTPSDialerPolicy, h]

/-- The witness of C8: with a corrupted blob the result is the null policy. -/
theorem C8_newHTTPSDialerPolicy_witness :
    newHTTPSDialerPolicy exampleNullPolicy exampleCorruptStatic () () () =
      exampleNullPolicy () () :=
  ((C8_newHTTPSDialerPolicy exampleNullPolicy exampleCorruptStatic () () ()).1
    (GoError.plain "invalid character in JSON") rfl).1

/-! ## Claims on the archival record -/

/-- C9: in the record built by `NewArchivalTCPConnectResult`, `Success` is true
if and only if the connect error is nil, `Failure` is absent if and only if the
error is nil, `Blocked` is null, and `T` is the seconds of the `finished`
argument, whatever `started` is.  `OnConnectDone` either leaves the queue as it
was or appends that record built from `finished.Sub(ZeroTime)`, so the `T` of
an enqueued record is the finish time relative to the zero time of the trace:
the seconds of `finished - ZeroTime` whenever that difference is a
`time.Duration`. -/
theorem C9_archival_record_shape {NE TH : Type} (env : Env) (tx : Trace NE TH)
    (index started0 finished0 : Int) (started finished : Time)
    (network domain remoteAddr : String) (err : Option GoError) :
    (((NewArchivalTCPConnectResult env index started0 remoteAddr err finished0).Status.Success
          = true ↔ err = none) ∧
        ((NewArchivalTCPConnectResult env index started0 remoteAddr err finished0).Status.Failure
          = none ↔ err = none) ∧
        (NewArchivalTCPConnectResult env index started0 remoteAddr err finished0).Status.Blocked
          = none ∧
        (NewArchivalTCPConnectResult env index started0 remoteAddr err finished0).T
          = Seconds finished0 ∧
        (∀ started1 : Int,
          NewArchivalTCPConnectResult env index started1 remoteAddr err finished0 =
            NewArchivalTCPConnectResult env index started0 remoteAddr err finished0)) ∧
      ((tx.OnConnectDone env started network domain remoteAddr err finished).TCPConnect.buf
          = tx.TCPConnect.buf ∨
        (tx.OnConnectDone env started network domain remoteAddr err finished).TCPConnect.buf
          = tx.TCPConnect.buf ++
            [NewArchivalTCPConnectResult env tx.Index (started.Sub tx.ZeroTime)
              remoteAddr err (finished.Sub tx.ZeroTime)]) ∧
      (NewArchivalTCPConnectResult env tx.Index (started.Sub tx.ZeroTime)
          remoteAddr err (finished.Sub tx.ZeroTime)).T
        = Seconds (finished.Sub tx.ZeroTime) ∧
      (minDuration ≤ finished.ns - tx.ZeroTime.ns →
        finished.ns - tx.ZeroTime.ns ≤ maxDuration →
        (NewArchivalTCPConnectResult env tx.Index (started.Sub tx.ZeroTime)
            remoteAddr err (finished.Sub tx.ZeroTime)).T
          = Seconds (finished.ns - tx.ZeroTime.ns)) := by
  refine ⟨⟨?_, ?_, rfl, rfl, fun _ => rfl⟩, ?_, rfl, ?_⟩
  · simp [NewArchivalTCPConnectResult]
  · cases err <;> simp [NewArchivalTCPConnectResult, NewFailure]
  · by_cases hnet : network = "tcp" ∨ network = "tcp4" ∨ network = "tcp6"
    · by_cases hroom : tx.TCPConnect.buf.length < tx.TCPConnect.cap
      · right
        simp [Trace.OnConnectDone, Chan.trySend, hnet, hroom]
      · left
        simp [Trace.OnConnectDone, Chan.trySend, hnet, hroom]
    · left
      simp [Trace.OnConnectDone, hnet]
  · intro hlo hhi
    have hsub : finished.Sub tx.ZeroTime = finished.ns - tx.ZeroTime.ns := by
      unfold Time.Sub
      simp only
      rw [if_neg (by omega), if_neg (by omega)]
    simp [NewArchivalTCPConnectResult, hsub]

/-- The witness of C9: a connect that started at 10 ns and finished at 30 ns
on the example trace, whose zero time is 0, has `T` the seconds of 30 ns. -/
theorem C9_archival_record_shape_witness :
    (NewArchivalTCPConnectResult exampleEnv exampleTrace.Index
        ((⟨10⟩ : Time).Sub exampleTrace.ZeroTime) "10.0.0.1:80" none
        ((⟨30⟩ : Time).Sub exampleTrace.ZeroTime)).T
      = Seconds ((⟨30⟩ : Time).ns - exampleTrace.ZeroTime.ns) :=
  (C9_archival_record_shape exampleEnv exampleTrace 0 0 0 ⟨10⟩ ⟨30⟩ "tcp"
    "example.org" "10.0.0.1:80" none).2.2.2 (by decide) (by decide)

/-- C11: for every index and zero time, `NewTrace(index, zeroTime)` returns a
trace whose `Index` is the index, whose `ZeroTime` is the zero time, and whose
three queues are empty with capacities 64 (network events), 8 (TCP connect)
and 8 (TLS or QUIC handshake). -/
theorem C11_NewTrace (NE TH : Type) (index : Int) (zeroTime : Time) :
    (NewTrace NE TH index zeroTime).Index = index ∧
      (NewTrace NE TH index zeroTime).ZeroTime = zeroTime ∧
      (NewTrace NE TH index zeroTime).NetworkEvent.buf = [] ∧
      (NewTrace NE TH index zeroTime).NetworkEvent.cap = 64 ∧
      (NewTrace NE TH index zeroTime).TCPConnect.buf = [] ∧
      (NewTrace NE TH index zeroTime).TCPConnect.cap = 8 ∧
      (NewTrace NE TH index zeroTime).TLSHandshake.buf = [] ∧
      (NewTrace NE TH index zeroTime).TLSHandshake.cap = 8 := by
  simp [NewTrace, Chan.make, NetworkEventBufferSize, TCPConnectBufferSize,
    TLSHandshakeBufferSize]

/-- C15: an `OnConnectDone` call changes the trace by at most one record
appended at the tail of the TCPConnect queue: exactly one record is appended
when the network is tcp, tcp4 or tcp6 and the queue is not full; with any
other network, or with a full queue, the TCPConnect queue is unchanged; and in
all cases the NetworkEvent and TLSHandshake queues, `Index`, `ZeroTime` and the
capacity of the TCPConnect queue are unchanged. -/
theorem C15_OnConnectDone_frame {NE TH : Type} (env : Env) (tx : Trace NE TH)
    (started finished : Time) (network domain remoteAddr : String)
    (err : Option GoError) :
    ((network = "tcp" ∨ network = "tcp4" ∨ network = "tcp6") →
        tx.TCPConnect.buf.length < tx.TCPConnect.cap →
        (tx.OnConnectDone env started network domain remoteAddr err finished).TCPConnect.buf
          = tx.TCPConnect.buf ++
            [NewArchivalTCPConnectResult env tx.Index (started.Sub tx.ZeroTime)
              remoteAddr err (finished.Sub tx.ZeroTime)]) ∧
      (¬ (network = "tcp" ∨ network = "tcp4" ∨ network = "tcp6") →
        (tx.OnConnectDone env started network domain remoteAddr err finished).TCPConnect.buf
          = tx.TCPConnect.buf) ∧
      (¬ tx.TCPConnect.buf.length < tx.TCPConnect.cap →
        (tx.OnConnectDone env started network domain remoteAddr err finished).TCPConnect.buf
          = tx.TCPConnect.buf) ∧
      (tx.OnConnectDone env started network domain remoteAddr err finished).TCPConnect.cap
        = tx.TCPConnect.cap ∧
      (tx.OnConnectDone env started network domain remoteAddr err finished).NetworkEvent.buf
        = tx.NetworkEvent.buf ∧
      (tx.OnConnectDone env started network domain remoteAddr err finished).NetworkEvent.cap
        = tx.NetworkEvent.cap ∧
      (tx.OnConnectDone env started network domain remoteAddr err finished).TLSHandshake.buf
        = tx.TLSHandshake.buf ∧
      (tx.OnConnectDone env started network domain remoteAddr err finished).TLSHandshake.cap
        = tx.TLSHandshake.cap ∧
      (tx.OnConnectDone env started network domain remoteAddr err finished).Index
        = tx.Index ∧
      (tx.OnConnectDone env started network domain remoteAddr err finished).ZeroTime
        = tx.ZeroTime := by
  by_cases hnet : network = "tcp" ∨ network = "tcp4" ∨ network = "tcp6"
  · by_cases hroom : tx.TCPConnect.buf.length < tx.TCPConnect.cap
    · simp [Trace.OnConnectDone, Chan.trySend, hnet, hroom]
    · simp [Trace.OnConnectDone, Chan.trySend, hnet, hroom]
  · by_cases hroom : tx.TCPConnect.buf.length < tx.TCPConnect.cap
    · simp [Trace.OnConnectDone, hnet]
    · simp [Trace.OnConnectDone, hnet]

/-- The witness of C15: a udp connect leaves the queue of the example trace as
it is. -/
theorem C15_OnConnectDone_frame_witness :
    (exampleTrace.OnConnectDone exampleEnv ⟨10⟩ "udp" "example.org" "10.0.0.1:53"
        none ⟨30⟩).TCPConnect.buf = exampleTrace.TCPConnect.buf :=
  (C15_OnConnectDone_frame exampleEnv exampleTrace ⟨10⟩ ⟨30⟩ "udp" "example.org"
    "10.0.0.1:53" none).2.1 (by decide)

/-! ## Claims on FillASNs as an operation on the DNS result -/

/-- C18: `FillASNs` discards the ASNs that the DNS result held and leaves
`Addrs` and `Failure` unchanged: with the same database the resulting ASNs are
the same whatever the previous ASNs were, and applying `FillASNs` twice gives
the result of applying it once. -/
theorem C18_FillASNs_overwrites (db : ASNDatabase) (sess : ExperimentSession)
    (dns : ControlDNSResult) :
    (FillASNs db sess dns).Addrs = dns.Addrs ∧
      (FillASNs db sess dns).Failure = dns.Failure ∧
      (∀ previous : List Int,
        (FillASNs db sess { dns with ASNs := previous }).ASNs =
          (FillASNs db sess dns).ASNs) ∧
      (∀ previous : List Int,
        FillASNs db sess { dns with ASNs := previous } = FillASNs db sess dns) ∧
      FillASNs db sess (FillASNs db sess dns) = FillASNs db sess dns := by
  simp [FillASNs_eq]

/-! ## Claims on the tlsmiddlebox configuration -/

theorem wrapInt64_id (x : Int) (hlo : -(2 ^ 63) ≤ x) (hhi : x < 2 ^ 63) :
    wrapInt64 x = x := by
  unfold wrapInt64
  have h : (x + 2 ^ 63) % 2 ^ 64 = x + 2 ^ 63 :=
    Int.emod_eq_of_lt (by omega) (by omega)
  omega

/-- C17, as stated, fails: with `Delay = 9223372036855`, a positive 64-bit
number, the product with `time.Millisecond` wraps and `delay()` is the negative
duration -9223372036854551616, neither strictly positive nor `Delay`
milliseconds. -/
theorem C17_delay_wraps_counterexample :
    0 < exampleHugeDelay.Delay ∧ exampleHugeDelay.Delay < 2 ^ 63 ∧
      exampleHugeDelay.delay = -9223372036854551616 ∧
      ¬ (0 < exampleHugeDelay.delay) ∧
      exampleHugeDelay.delay ≠ exampleHugeDelay.Delay * Millisecond := by
  decide

/-- C17, amended: `delay()` is 100 milliseconds whenever `Delay <= 0`, and it
is `Delay` milliseconds, a strictly positive duration, whenever
`0 < Delay <= 9223372036854`, the largest number of milliseconds that 64-bit
nanoseconds hold; in general, for `Delay > 0`, it is `Delay * 1000000` reduced
to an `int64`. -/
theorem C17_delay_amended (c : Config) :
    (c.Delay ≤ 0 → c.delay = 100 * Millisecond ∧ 0 < c.delay) ∧
      (0 < c.Delay → c.Delay ≤ 9223372036854 →
        c.delay = c.Delay * Millisecond ∧ 0 < c.delay) ∧
      (0 < c.Delay → c.delay = wrapInt64 (c.Delay * Millisecond)) := by
  refine ⟨?_, ?_, ?_⟩
  · intro h
    have hn : ¬ c.Delay > 0 := by omega
    simp [Config.delay, hn, Millisecond]
  · intro hpos hle
    have hw : wrapInt64 (c.Delay * Millisecond) = c.Delay * Millisecond := by
      apply wrapInt64_id
      · simp only [Millisecond]; omega
      · simp only [Millisecond]; omega
    have hd : c.delay = c.Delay * Millisecond := by
      simp only [Config.delay, if_pos (show c.Delay > 0 from hpos), hw]
    refine ⟨hd, ?_⟩
    rw [hd]
    simp only [Millisecond]
    omega
  · intro hpos
    simp only [Config.delay, if_pos (show c.Delay > 0 from hpos)]

/-- The witness of C17 amended: a delay of 250 is 250 milliseconds. -/
theorem C17_delay_amended_witness :
    exampleDelay250.delay = exampleDelay250.Delay * Millisecond ∧
      0 < exampleDelay250.delay :=
  (C17_delay_amended exampleDelay250).2.1 (by decide) (by decide)

/-! ## Claims on the Alt-Svc heuristic -/

theorem Split_cons_exists (sep : Char) (s : List Char) :
    ∃ e es, Split sep s = e :: es := by
  induction s with
  | nil => exact ⟨[], [], rfl⟩
  | cons c cs ih =>
    obtain ⟨e, es, h⟩ := ih
    by_cases hc : c = sep
    · exact ⟨[], Split sep cs, by simp [Split, hc]⟩
    · exact ⟨c :: e, es, by simp [Split, hc, h]⟩

theorem Split_first_segment (cs : List Char) :
    ∃ e es, Split ';' cs = e :: es ∧
      List.isPrefixOf ['3'] e = List.isPrefixOf ['3'] cs := by
  cases cs with
  | nil => exact ⟨[], [], rfl, rfl⟩
  | cons d ds =>
    by_cases hd : d = ';'
    · subst hd
      refine ⟨[], Split ';' ds, by simp [Split], ?_⟩
      simp [List.isPrefixOf]
    · obtain ⟨e, es, h⟩ := Split_cons_exists ';' ds
      refine ⟨d :: e, es, by simp [Split, hd, h], ?_⟩
      simp [List.isPrefixOf]

theorem discoverH3ServerLoop_cons (e : List Char) (es : List (List Char)) :
    discoverH3ServerLoop (e :: es) =
      (Contains ['h', '3'] e || discoverH3ServerLoop es) := by
  have h3 : "h3".toList = ['h', '3'] := by decide
  by_cases h : Contains ['h', '3'] e = true
  · simp [discoverH3ServerLoop, h3, h]
  · simp [discoverH3ServerLoop, h3, h]

theorem discoverH3ServerLoop_Split (s : List Char) :
    discoverH3ServerLoop (Split ';' s) = Contains ['h', '3'] s := by
  induction s with
  | nil => decide
  | cons c cs ih =>
    by_cases hc : c = ';'
    · subst hc
      have hs : Split ';' (';' :: cs) = [] :: Split ';' cs := by simp [Split]
      rw [hs, discoverH3ServerLoop_cons, ih]
      simp [Contains, List.isPrefixOf]
    · obtain ⟨e, es, hsplit, hpre⟩ := Split_first_segment cs
      have hs : Split ';' (c :: cs) = (c :: e) :: es := by simp [Split, hc, hsplit]
      rw [hsplit, discoverH3ServerLoop_cons] at ih
      rw [hs, discoverH3ServerLoop_cons]
      have h1 : Contains ['h', '3'] (c :: e) =
          (List.isPrefixOf ['h', '3'] (c :: e) || Contains ['h', '3'] e) := rfl
      have h2 : Contains ['h', '3'] (c :: cs) =
          (List.isPrefixOf ['h', '3'] (c :: cs) || Contains ['h', '3'] cs) := rfl
      have h3 : List.isPrefixOf ['h', '3'] (c :: e) =
          List.isPrefixOf ['h', '3'] (c :: cs) := by
        simp only [List.isPrefixOf, hpre]
      rw [h1, h2, h3, ← ih, Bool.or_assoc]

/-- C16: for every https URL and every response, `discoverH3Server` returns
true if and only if the value stored under the exact key `Alt-Svc` contains
`h3` somewhere, so splitting on `;` never changes the answer; a value in which
`h3` occurs only inside an unrelated token gives true, and a header stored
only under the key `alt-svc` gives false. -/
theorem C16_discoverH3Server_substring :
    (∀ (resp : ControlHTTPRequestResult) (u : URL), u.Scheme = "https" →
        discoverH3Server resp u = altSvcValueContainsH3 resp) ∧
      (∀ (resp : ControlHTTPRequestResult) (u : URL), u.Scheme = "https" →
        (discoverH3Server resp u = true ↔
          ∃ v, resp.Headers.lookup "Alt-Svc" = some v ∧
            Contains "h3".toList v.toList = true)) ∧
      discoverH3Server exampleUnrelatedToken ⟨"https", "example.org", "/"⟩ = true ∧
      (Split ';' "h2=\":443\"; ma=3600; foo=xh3y".toList).map String.mk =
        ["h2=\":443\"", " ma=3600", " foo=xh3y"] ∧
      discoverH3Server exampleLowerCaseKey ⟨"https", "example.org", "/"⟩ = false := by
  have hkey : "h3".toList = ['h', '3'] := by decide
  have hmain : ∀ (resp : ControlHTTPRequestResult) (u : URL), u.Scheme = "https" →
      discoverH3Server resp u = altSvcValueContainsH3 resp := by
    intro resp u h
    simp only [discoverH3Server, h, altSvcValueContainsH3, hkey]
    simpa using discoverH3ServerLoop_Split (mapIndex resp.Headers "Alt-Svc").toList
  refine ⟨hmain, ?_, by decide, by decide, by decide⟩
  intro resp u h
  rw [hmain resp u h]
  cases hl : resp.Headers.lookup "Alt-Svc" with
  | none =>
    have hfalse : Contains ['h', '3'] [] = false := by decide
    simp [altSvcValueContainsH3, mapIndex_absent _ _ hl, hfalse]
  | some v => simp [altSvcValueContainsH3, mapIndex_present _ _ _ hl]

/-- The witness of C16: on the response that advertises HTTP/3 the code agrees
with the plain substring match. -/
theorem C16_discoverH3Server_substring_witness :
    discoverH3Server exampleH3Response ⟨"https", "example.org", "/"⟩ =
      altSvcValueContainsH3 exampleH3Response :=
  C16_discoverH3Server_substring.1 exampleH3Response ⟨"https", "example.org", "/"⟩ rfl

/-! ## Claims on tasks -/

/-- C12: `contextForWaitForNextEvent` gives a context with no deadline if and
only if the timeout is negative, and for every non-negative timeout, zero
included, a context whose deadline is the instant of the call plus the
timeout; and when `waitForNextEvent` returns because the deadline expired it
returns nil, removes no buffered event and does not touch the done flag.  With
a negative timeout the call never returns for that reason. -/
theorem C12_wait_timeout {R : Type} (tp : taskState R) (now : Time) (timeo : Int) :
    ((contextForWaitForNextEvent now timeo).deadline = none ↔ timeo < 0) ∧
      (0 ≤ timeo →
        (contextForWaitForNextEvent now timeo).deadline = some (now.Add timeo)) ∧
      (0 ≤ timeo → tp.waitForNextEvent now timeo Ready.ctxDone = some (none, tp)) ∧
      (timeo < 0 → tp.waitForNextEvent now timeo Ready.ctxDone = none) ∧
      (∀ (r : Option R) (tp1 : taskState R),
        tp.waitForNextEvent now timeo Ready.ctxDone = some (r, tp1) →
          r = none ∧ tp1.events.buf = tp.events.buf ∧ tp1.done = tp.done ∧
            tp1.isDone = tp.isDone ∧ 0 ≤ timeo) := by
  by_cases h : timeo < 0
  · have hn : ¬ 0 ≤ timeo := by omega
    simp [contextForWaitForNextEvent, taskState.waitForNextEvent, WithCancel,
      Background, h, hn]
  · have hp : 0 ≤ timeo := by omega
    simp [contextForWaitForNextEvent, taskState.waitForNextEvent, WithTimeout,
      WithDeadline, Background, h, hp]

/-- The witness of C12: a wait of zero nanoseconds on a fresh task returns nil
on expiry and leaves the task as it was. -/
theorem C12_wait_timeout_witness :
    (startTask String).waitForNextEvent ⟨5⟩ 0 Ready.ctxDone =
      some (none, startTask String) :=
  (C12_wait_timeout (startTask String) ⟨5⟩ 0).2.2.1 (by decide)

/-! ## Lemmas on the life of a task -/

theorem run_append {R : Type} (xs ys : List (Action R)) :
    ∀ tp : taskState R,
      tp.run (xs ++ ys) =
        match tp.run xs with
        | some t => t.run ys
        | none => none := by
  induction xs with
  | nil => intro tp; simp [taskState.run]
  | cons a rest ih =>
    intro tp
    cases h : tp.step a with
    | none => simp [taskState.run, h]
    | some t => simp [taskState.run, h, ih]

/-- What a `waitForNextEvent` call can do: return an event it removed from the
head of the queue, return nil on expiry, or return nil after finding the queue
empty with `stopped` closed, which counts `done` up. -/
theorem waitForNextEvent_cases {R : Type} (tp : taskState R) (now : Time)
    (timeout : Int) (ready : Ready) (r : Option R) (tp1 : taskState R)
    (h : tp.waitForNextEvent now timeout ready = some (r, tp1)) :
    (∃ ev rest, r = some ev ∧ tp.events.buf = ev :: rest ∧
        tp1 = { tp with events := { tp.events with buf := rest } }) ∨
      (r = none ∧ ready = Ready.ctxDone ∧ tp1 = tp) ∨
      (r = none ∧ ready = Ready.stopped ∧ tp.stopped = true ∧ tp.events.buf = [] ∧
        tp1 = { tp with done := wrapInt64 (tp.done + 1) }) := by
  cases ready with
  | ctxDone =>
    right; left
    simp only [taskState.waitForNextEvent] at h
    split at h
    · simp only [Option.some.injEq, Prod.mk.injEq] at h
      exact ⟨h.1.symm, rfl, h.2.symm⟩
    · exact absurd h (by simp)
  | events =>
    left
    simp only [taskState.waitForNextEvent, Chan.tryRecv] at h
    cases hb : tp.events.buf with
    | nil => simp [hb] at h
    | cons ev rest =>
      simp only [hb, Option.some.injEq, Prod.mk.injEq] at h
      exact ⟨ev, rest, h.1.symm, rfl, h.2.symm⟩
  | stopped =>
    simp only [taskState.waitForNextEvent, Chan.tryRecv] at h
    by_cases hs : tp.stopped = true
    · cases hb : tp.events.buf with
      | nil =>
        right; right
        simp only [hs, hb, if_true, Option.some.injEq, Prod.mk.injEq] at h
        refine ⟨h.1.symm, rfl, hs, rfl, ?_⟩
        rw [← h.2]
        simp [hs]
      | cons ev rest =>
        left
        simp only [hs, hb, if_true, Option.some.injEq, Prod.mk.injEq] at h
        refine ⟨ev, rest, h.1.symm, rfl, ?_⟩
        rw [← h.2]
        simp [hs]
    · simp [hs] at h

/-- Once `stopped` is closed and the queue is empty, both stay so. -/
theorem step_keeps_drained {R : Type} (tp tp1 : taskState R) (a : Action R)
    (hstep : tp.step a = some tp1) (hs : tp.stopped = true)
    (hb : tp.events.buf = []) : tp1.stopped = true ∧ tp1.events.buf = [] := by
  cases a with
  | emit ev => simp [taskState.step, hs] at hstep
  | closeStopped => simp [taskState.step, hs] at hstep
  | interrupt =>
    simp only [taskState.step, taskState.interrupt, Option.some.injEq] at hstep
    subst hstep
    exact ⟨hs, hb⟩
  | wait now timeout ready =>
    simp only [taskState.step] at hstep
    cases hw : tp.waitForNextEvent now timeout ready with
    | none => simp [hw] at hstep
    | some r =>
      simp only [hw, Option.some.injEq] at hstep
      obtain ⟨r1, t⟩ := r
      simp only at hstep
      subst hstep
      rcases waitForNextEvent_cases tp now timeout ready r1 t hw with
        ⟨ev, rest, _, hbuf, _⟩ | ⟨_, _, ht⟩ | ⟨_, _, _, _, ht⟩
      · rw [hb] at hbuf
        exact absurd hbuf (by simp)
      · rw [ht]; exact ⟨hs, hb⟩
      · rw [ht]; exact ⟨hs, hb⟩

theorem run_keeps_drained {R : Type} (more : List (Action R)) :
    ∀ tp tp2 : taskState R, tp.run more = some tp2 → tp.stopped = true →
      tp.events.buf = [] → tp2.stopped = true ∧ tp2.events.buf = [] := by
  induction more with
  | nil =>
    intro tp tp2 h hs hb
    simp only [taskState.run, Option.some.injEq] at h
    subst h
    exact ⟨hs, hb⟩
  | cons a rest ih =>
    intro tp tp2 h hs hb
    cases hstep : tp.step a with
    | none => simp [taskState.run, hstep] at h
    | some t =>
      simp only [taskState.run, hstep] at h
      have hd := step_keeps_drained tp t a hstep hs hb
      exact ih t tp2 h hd.1 hd.2

/-- One action changes `done` only when a wait finds the queue drained. -/
theorem step_done {R : Type} (tp tp1 : taskState R) (a : Action R)
    (hstep : tp.step a = some tp1) :
    tp1.done = tp.done ∨
      (tp1.done = wrapInt64 (tp.done + 1) ∧ tp.stopped = true ∧ tp.events.buf = [] ∧
        ∃ now timeout, a = Action.wait now timeout Ready.stopped) := by
  cases a with
  | emit ev =>
    left
    simp only [taskState.step] at hstep
    split at hstep
    · exact absurd hstep (by simp)
    · simp only [Option.some.injEq] at hstep
      subst hstep
      rfl
  | closeStopped =>
    left
    simp only [taskState.step] at hstep
    split at hstep
    · exact absurd hstep (by simp)
    · simp only [Option.some.injEq] at hstep
      subst hstep
      rfl
  | interrupt =>
    left
    simp only [taskState.step, taskState.interrupt, Option.some.injEq] at hstep
    subst hstep
    rfl
  | wait now timeout ready =>
    simp only [taskState.step] at hstep
    cases hw : tp.waitForNextEvent now timeout ready with
    | none => simp [hw] at hstep
    | some r =>
      simp only [hw, Option.some.injEq] at hstep
      obtain ⟨r1, t⟩ := r
      simp only at hstep
      subst hstep
      rcases waitForNextEvent_cases tp now timeout ready r1 t hw with
        ⟨ev, rest, _, _, ht⟩ | ⟨_, _, ht⟩ | ⟨_, hready, hs, hb, ht⟩
      · left; rw [ht]
      · left; rw [ht]
      · right
        subst hready
        exact ⟨by rw [ht], hs, hb, now, timeout, rfl⟩

theorem run_snoc {R : Type} (xs : List (Action R)) (a : Action R)
    (tp0 tp : taskState R) (h : tp0.run (xs ++ [a]) = some tp) :
    ∃ s, tp0.run xs = some s ∧ s.step a = some tp := by
  rw [run_append] at h
  cases hx : tp0.run xs with
  | none => simp [hx] at h
  | some s =>
    simp only [hx] at h
    cases hs : s.step a with
    | none => simp [taskState.run, hs] at h
    | some t =>
      simp only [taskState.run, hs, Option.some.injEq] at h
      subst h
      exact ⟨s, rfl, hs⟩

/-- In a state reached from the start, a non-zero `done` means that `stopped`
is closed, the queue is empty, and an earlier wait took the stopped case on an
empty queue. -/
theorem run_done_history {R : Type} (actions : List (Action R)) :
    ∀ tp : taskState R, (startTask R).run actions = some tp → tp.done ≠ 0 →
      tp.stopped = true ∧ tp.events.buf = [] ∧
        ∃ (pre post : List (Action R)) (now : Time) (timeout : Int) (s : taskState R),
          actions = pre ++ Action.wait now timeout Ready.stopped :: post ∧
            (startTask R).run pre = some s ∧ s.stopped = true ∧ s.events.buf = [] := by
  induction actions using List.reverseRecOn with
  | nil =>
    intro tp h hd
    simp only [taskState.run, Option.some.injEq] at h
    subst h
    exact absurd rfl hd
  | append_singleton xs a ih =>
    intro tp h hd
    obtain ⟨s, hxs, hstep⟩ := run_snoc xs a _ tp h
    rcases step_done s tp a hstep with hsame | ⟨_, hs, hb, now, timeout, ha⟩
    · rw [hsame] at hd
      obtain ⟨hs, hb, pre, post, now, timeout, s0, hdec, hpre, hs0, hb0⟩ := ih s hxs hd
      have hk := step_keeps_drained s tp a hstep hs hb
      exact ⟨hk.1, hk.2, pre, post ++ [a], now, timeout, s0, by simp [hdec], hpre, hs0, hb0⟩
    · have hk := step_keeps_drained s tp a hstep hs hb
      exact ⟨hk.1, hk.2, xs, [], now, timeout, s, by simp [ha], hxs, hs, hb⟩

/-- While the counter cannot wrap, `done` never decreases and grows by at most
one per action. -/
theorem run_done_bound {R : Type} (more : List (Action R)) :
    ∀ tp tp2 : taskState R, tp.run more = some tp2 → 0 ≤ tp.done →
      tp.done + more.length < 2 ^ 63 →
      tp.done ≤ tp2.done ∧ tp2.done ≤ tp.done + more.length := by
  induction more with
  | nil =>
    intro tp tp2 h _ _
    simp only [taskState.run, Option.some.injEq] at h
    subst h
    simp
  | cons a rest ih =>
    intro tp tp2 h h0 hlt
    cases hstep : tp.step a with
    | none => simp [taskState.run, hstep] at h
    | some t =>
      simp only [taskState.run, hstep] at h
      have hlen : ((a :: rest).length : Int) = (rest.length : Int) + 1 := by simp
      rw [hlen] at hlt ⊢
      rcases step_done tp t a hstep with hsame | ⟨hinc, _⟩
      · have := ih t tp2 h (by omega) (by omega)
        omega
      · have hw : wrapInt64 (tp.done + 1) = tp.done + 1 :=
          wrapInt64_id _ (by omega) (by omega)
        rw [hw] at hinc
        have := ih t tp2 h (by omega) (by omega)
        omega

theorem isDone_iff {R : Type} (tp : taskState R) : tp.isDone = true ↔ 0 < tp.done := by
  simp [taskState.isDone]

/-- C14: in every state that a task reaches from its start, the done
flag is true only if `stopped` is closed, the queue is empty, and an earlier
`waitForNextEvent` took the stopped case on an empty queue; a call that
returns an event or returns on timeout leaves `done` unchanged; the flag does
not go back from true to false as long as fewer than `2^63` actions happened
on the task, which is what its 64-bit counter can count; and once the flag is
true no later `waitForNextEvent` returns an event. -/
theorem C14_done_invariant {R : Type} (actions : List (Action R))
    (tp : taskState R) (hrun : (startTask R).run actions = some tp) :
    (tp.isDone = true →
        tp.stopped = true ∧ tp.events.buf = [] ∧
          ∃ (pre post : List (Action R)) (now : Time) (timeout : Int)
            (s : taskState R),
            actions = pre ++ Action.wait now timeout Ready.stopped :: post ∧
              (startTask R).run pre = some s ∧ s.stopped = true ∧
              s.events.buf = []) ∧
      (∀ (now : Time) (timeout : Int) (ready : Ready) (r : Option R)
          (tp1 : taskState R),
        tp.waitForNextEvent now timeout ready = some (r, tp1) →
          (r ≠ none ∨ ready = Ready.ctxDone) →
          tp1.done = tp.done ∧ tp1.isDone = tp.isDone) ∧
      (∀ (more : List (Action R)) (tp2 : taskState R),
        tp.run more = some tp2 → actions.length + more.length < 2 ^ 63 →
          tp.isDone = true → tp2.isDone = true) ∧
      (∀ (more : List (Action R)) (tp2 : taskState R),
        tp.run more = some tp2 → tp.isDone = true →
          ∀ (now : Time) (timeout : Int) (ready : Ready) (r : Option R)
            (tp3 : taskState R),
            tp2.waitForNextEvent now timeout ready = some (r, tp3) → r = none) := by
  have hhist := run_done_history actions tp hrun
  refine ⟨?_, ?_, ?_, ?_⟩
  · intro hd
    have hpos := (isDone_iff tp).mp hd
    exact hhist (by omega)
  · intro now timeout ready r tp1 hw hr
    rcases waitForNextEvent_cases tp now timeout ready r tp1 hw with
      ⟨ev, rest, _, _, ht⟩ | ⟨_, _, ht⟩ | ⟨hnone, hready, _, _, _⟩
    · rw [ht]
      exact ⟨rfl, rfl⟩
    · rw [ht]
      exact ⟨rfl, rfl⟩
    · rcases hr with hr | hr
      · exact absurd hnone hr
      · rw [hready] at hr
        exact absurd hr (by decide)
  · intro more tp2 hmore hlen hd
    have hpos := (isDone_iff tp).mp hd
    have hstart : (startTask R).done = 0 := rfl
    have hb1 := run_done_bound actions (startTask R) tp hrun (by rw [hstart])
      (by rw [hstart]; omega)
    rw [hstart] at hb1
    have hb2 := run_done_bound more tp tp2 hmore (by omega) (by omega)
    exact (isDone_iff tp2).mpr (by omega)
  · intro more tp2 hmore hd now timeout ready r tp3 hw
    have hpos := (isDone_iff tp).mp hd
    obtain ⟨hs, hb, _⟩ := hhist (by omega)
    have hk := run_keeps_drained more tp tp2 hmore hs hb
    rcases waitForNextEvent_cases tp2 now timeout ready r tp3 hw with
      ⟨ev, rest, _, hbuf, _⟩ | ⟨hnone, _, _⟩ | ⟨hnone, _, _, _, _⟩
    · rw [hk.2] at hbuf
      exact absurd hbuf (by simp)
    · exact hnone
    · exact hnone

/-- The witness of C14: after the example actions the task is done, and from
there on a further wait keeps it done. -/
theorem C14_done_invariant_witness :
    (⟨true, 2, ⟨1024, []⟩, true⟩ : taskState String).isDone = true :=
  (C14_done_invariant exampleActions ⟨false, 1, ⟨1024, []⟩, true⟩ rfl).2.2.1
    [Action.interrupt, Action.wait ⟨0⟩ (-1) Ready.stopped]
    ⟨true, 2, ⟨1024, []⟩, true⟩ rfl (by decide) rfl

/-! ## Claims on the HTTPS dialer -/

/-- When every tactic fails the dial loop returns an error, the failure of the
last tactic, and records one failure per tactic, in order. -/
theorem dialTactics_all_fail {Tactic Conn : Type}
    (attempt : Tactic → Except GoError Conn) (tactics : List Tactic) :
    ∀ (last : GoError) (stats : List (StatsRecord Tactic)),
      (∀ t ∈ tactics, ∃ e, attempt t = Except.error e) →
      ∃ (e : GoError) (recs : List (StatsRecord Tactic)),
        dialTactics attempt tactics last stats = (Except.error e, stats ++ recs) ∧
          recs.map StatsRecord.tactic = tactics ∧
          (∀ r ∈ recs, r.isFailure = true) ∧
          (tactics = [] → e = last) ∧
          (∀ h : tactics ≠ [], attempt (tactics.getLast h) = Except.error e) := by
  induction tactics with
  | nil =>
    intro last stats _
    exact ⟨last, [], by simp [dialTactics], rfl, by simp, fun _ => rfl,
      fun h => absurd rfl h⟩
  | cons t rest ih =>
    intro last stats hall
    obtain ⟨e0, he0⟩ := hall t (List.mem_cons_self t rest)
    obtain ⟨e, recs, hrun, hmap, hfail, hnil, hlast⟩ :=
      ih e0 (stats ++ [StatsRecord.failure t e0])
        (fun x hx => hall x (List.mem_cons_of_mem t hx))
    refine ⟨e, StatsRecord.failure t e0 :: recs, ?_, ?_, ?_, ?_, ?_⟩
    · simp [dialTactics, he0, hrun]
    · simp [StatsRecord.tactic, hmap]
    · intro r hr
      rcases List.mem_cons.mp hr with h | h
      · rw [h]; rfl
      · exact hfail r h
    · intro h
      exact absurd h (by simp)
    · intro _
      cases rest with
      | nil =>
        have : e = e0 := hnil rfl
        simpa [this] using he0
      | cons u us =>
        have := hlast (by simp)
        simpa using this

/-- C13: when the policy gives the ordered tactics `S1`, `S2`, `S1` fails and
`S2` succeeds, the dialer returns the connection of `S2` and adds to the stats
exactly one failure for `S1` followed by one success for `S2`, the tactics of
the new records being the sequence of the policy in its order; and when every
tactic fails the dialer returns an error, the failure of the last tactic,
after recording one failure per tactic in the order of the policy. -/
theorem C13_dialer_records {Tactic Conn : Type} (policy : HTTPSDialerPolicy Tactic)
    (attempt : Tactic → Except GoError Conn) (stats : List (StatsRecord Tactic))
    (domain port : String) :
    (∀ (S1 S2 : Tactic) (e : GoError) (conn : Conn),
        policy.LookupTactics domain port = [S1, S2] →
        attempt S1 = Except.error e → attempt S2 = Except.ok conn →
        DialTLSContext policy attempt stats domain port =
            (Except.ok conn,
              stats ++ [StatsRecord.failure S1 e, StatsRecord.success S2]) ∧
          [StatsRecord.failure S1 e, StatsRecord.success S2].map StatsRecord.tactic =
            policy.LookupTactics domain port) ∧
      ((∀ t ∈ policy.LookupTactics domain port, ∃ e, attempt t = Except.error e) →
        ∃ (e : GoError) (recs : List (StatsRecord Tactic)),
          DialTLSContext policy attempt stats domain port =
              (Except.error e, stats ++ recs) ∧
            recs.map StatsRecord.tactic = policy.LookupTactics domain port ∧
            (∀ r ∈ recs, r.isFailure = true) ∧
            (∀ h : policy.LookupTactics domain port ≠ [],
              attempt ((policy.LookupTactics domain port).getLast h) =
                Except.error e)) := by
  constructor
  · intro S1 S2 e conn hseq h1 h2
    refine ⟨?_, ?_⟩
    · simp [DialTLSContext, hseq, dialTactics, h1, h2]
    · simp [StatsRecord.tactic, hseq]
  · intro hall
    obtain ⟨e, recs, hrun, hmap, hfail, _, hlast⟩ :=
      dialTactics_all_fail attempt (policy.LookupTactics domain port) errNoTactics
        stats hall
    exact ⟨e, recs, hrun, hmap, hfail, hlast⟩

/-- The witness of C13: with the example policy `S1` fails and `S2` connects. -/
theorem C13_dialer_records_witness :
    DialTLSContext exampleTwoTactics exampleAttempt [] "example.org" "443" =
      (Except.ok 7,
        [] ++ [StatsRecord.failure "S1" (GoError.plain "connection_reset"),
          StatsRecord.success "S2"]) :=
  ((C13_dialer_records exampleTwoTactics exampleAttempt [] "example.org" "443").1
    "S1" "S2" (GoError.plain "connection_reset") 7 rfl rfl rfl).1

end Probe
